import Mathlib

/-!
Verification of the uecs-llm on-device control daemon against its
natural-language specification.

The Python sources are shallowly embedded:
* bytes are `List ℕ` (each element intended < 256 where it matters),
* Python ints are `ℕ`/`ℤ`, Python floats are exact rationals `ℚ`,
* fallible functions return `Except String _` or `Option _`,
* stateful objects are explicit state records with pure step functions,
* side effects (relay writes, MQTT publishes, timer installs) are
  reified as action lists returned by the step functions.

Sources embedded:
* src/unipi_daemon/wh65lp_reader.py   (weather frame codec and reader)
* src/unipi_daemon/emergency_override.py (CommandGate)
* src/unipi_daemon/i2c_relay.py       (MCP23008 relay driver)
* src/unipi_daemon/mqtt_relay_bridge.py (broker-to-relay bridge)
-/

namespace UnipiDaemon

/-! ### Weather frame codec constants (wh65lp_reader.py) -/

def SYNC_BYTE : ℕ := 0x24
def FRAME_LEN_BASE : ℕ := 17
def FRAME_LEN_EXT : ℕ := 21

def SENTINEL_WIND_DIR : ℕ := 0x1FF
def SENTINEL_TEMP : ℕ := 0x7FF
def SENTINEL_WIND : ℕ := 0x1FF
def SENTINEL_GUST : ℕ := 0xFF
def SENTINEL_UV : ℕ := 0xFFFF
def SENTINEL_LIGHT : ℕ := 0xFFFFFF

/-- Embedding of `verify_checksum` (wh65lp_reader.py lines 64-76):
`if len(data) < FRAME_LEN_BASE: return False;
 return (sum(data[0:16]) & 0xFF) == data[16]`. -/
def verify_checksum (data : List ℕ) : Bool :=
  if data.length < FRAME_LEN_BASE then false
  else ((data.take 16).sum &&& 0xFF) == data.getD 16 0

/-! ### Generic list helper lemmas -/

lemma getD_set_ne_aux {α : Type} (l : List α) (i j : ℕ) (v : α) (d : α)
    (h : i ≠ j) : (l.set i v).getD j d = l.getD j d := by
  induction l generalizing i j with
  | nil => simp
  | cons a tl ih =>
    cases i with
    | zero =>
      cases j with
      | zero => exact absurd rfl h
      | succ j' => simp [List.getD]
    | succ i' =>
      cases j with
      | zero => simp [List.getD]
      | succ j' =>
        simp only [List.set, List.getD]
        exact ih i' j' (fun hc => h (by rw [hc]))

lemma take_sum_set_aux (l : List ℕ) (i n v : ℕ) (hi : i < n)
    (hil : i < l.length) :
    ((l.set i v).take n).sum + l.getD i 0 = (l.take n).sum + v := by
  induction l generalizing i n with
  | nil => simp at hil
  | cons a tl ih =>
    cases i with
    | zero =>
      cases n with
      | zero => omega
      | succ n' => simp [List.getD_cons_zero]; omega
    | succ i' =>
      cases n with
      | zero => omega
      | succ n' =>
        simp only [List.set, List.take, List.sum_cons, List.getD_cons_succ]
        have := ih i' n' (by omega) (by simpa using hil)
        omega

lemma and_255_eq_mod (s : ℕ) : s &&& 255 = s % 256 := by
  have h := Nat.and_pow_two_sub_one_eq_mod s 8
  norm_num at h
  exact h

/-- Characterization of `verify_checksum` used by the claim proofs. -/
lemma verify_checksum_true_iff (data : List ℕ) :
    verify_checksum data = true ↔
      (17 ≤ data.length ∧ (data.take 16).sum % 256 = data.getD 16 0) := by
  unfold verify_checksum FRAME_LEN_BASE
  split
  · next h => simp; omega
  · next h =>
    have h17 : 17 ≤ data.length := by omega
    rw [show (0xFF : ℕ) = 255 from rfl, and_255_eq_mod]
    simp [h17, beq_iff_eq]

/-- C4: For every byte string b, verify(b) returns true if and only if the
length of b is at least 17 and the sum of bytes b[0..15] modulo 256 equals
b[16] (byte 16 being the low 8 bits of the sum of bytes 0..15). -/
theorem verify_checksum_spec (data : List ℕ) :
    verify_checksum data = true ↔
      (17 ≤ data.length ∧ (data.take 16).sum % 256 = data.getD 16 0) :=
  verify_checksum_true_iff data

/-- C4 witness: the characterization evaluated at a concrete frame. -/
theorem verify_checksum_spec_witness :
    verify_checksum
      ([0x24, 0, 0x5A, 0, 0x54, 112] ++ List.replicate 10 0 ++ [0x42]) = true :=
  (verify_checksum_spec _).mpr (by decide)

/-- The 17-byte frame exactly as claim C5 writes it (byte 5 is decimal 70). -/
def spec_frame : List ℕ :=
  [0x24, 0, 0x5A, 0, 0x54, 70, 0, 0, 0, 0, 0, 0, 0, 0, 0, 0, 0x42]

/-- The claim-C5 frame with its checksum byte corrected:
sum of bytes 0..15 is 0x24 + 0x5A + 0x54 + 70 = 280, and 280 mod 256 = 0x18. -/
def spec_frame_fixed : List ℕ :=
  [0x24, 0, 0x5A, 0, 0x54, 70, 0, 0, 0, 0, 0, 0, 0, 0, 0, 0, 0x18]

/-- C5 counterexample: the frame as written in the claim does NOT verify —
its bytes 0..15 sum to 280 and 280 mod 256 = 0x18 ≠ 0x42. -/
theorem spec_frame_does_not_verify : verify_checksum spec_frame = false := by
  decide

/-- C5 (amended): the claim's frame with checksum byte 0x18 instead of 0x42
has a correct checksum and verify returns true on it; changing any single
non-checksum byte (index < 16, to a different byte value < 256) of any
verifying frame makes verify return false. -/
theorem checksum_veto (f : List ℕ) (i v : ℕ) (hv : verify_checksum f = true)
    (hi : i < 16) (hfi : f.getD i 0 < 256) (hvlt : v < 256)
    (hne : v ≠ f.getD i 0) :
    verify_checksum spec_frame_fixed = true ∧
      verify_checksum (f.set i v) = false := by
  refine ⟨by decide, ?_⟩
  obtain ⟨hlen, hsum⟩ := (verify_checksum_true_iff f).1 hv
  rw [← Bool.not_eq_true]
  intro hvt
  obtain ⟨hlen', hsum'⟩ := (verify_checksum_true_iff _).1 hvt
  have hg : (f.set i v).getD 16 0 = f.getD 16 0 :=
    getD_set_ne_aux f i 16 v 0 (by omega)
  have hs : ((f.set i v).take 16).sum + f.getD i 0 = (f.take 16).sum + v :=
    take_sum_set_aux f i 16 v hi (by omega)
  rw [hg] at hsum'
  omega

/-- C5 witness: the amended frame verifies, and setting its byte 2 to 0
breaks verification. -/
theorem checksum_veto_witness :
    verify_checksum spec_frame_fixed = true ∧
      verify_checksum (spec_frame_fixed.set 2 0) = false :=
  checksum_veto spec_frame_fixed 2 0 (by decide) (by decide) (by decide)
    (by decide) (by decide)

/-! ### Frame parser (wh65lp_reader.py lines 79-151)

Python floats are modelled as exact rationals; Python's `round(x, n)`
(round-half-even) is modelled exactly on rationals by `pyRound`. -/

/-- Round-half-even of a rational to an integer (the rounding Python's
built-in `round` applies). -/
def roundHalfEven (q : ℚ) : ℤ :=
  let f : ℤ := ⌊q⌋
  let r : ℚ := q - f
  if r < 1 / 2 then f
  else if 1 / 2 < r then f + 1
  else if f % 2 = 0 then f else f + 1

/-- Python's `round(x, n)` on the exact-rational model of floats. -/
def pyRound (x : ℚ) (n : ℕ) : ℚ :=
  (roundHalfEven (x * (10 ^ n : ℚ)) : ℚ) / (10 ^ n : ℚ)

lemma roundHalfEven_intCast (z : ℤ) : roundHalfEven (z : ℚ) = z := by
  unfold roundHalfEven
  rw [Int.floor_intCast]
  norm_num

lemma roundHalfEven_of_lt_half (q : ℚ) (z : ℤ) (h1 : (z : ℚ) ≤ q)
    (h2 : q < z + 1 / 2) : roundHalfEven q = z := by
  have hf : ⌊q⌋ = z := by
    rw [Int.floor_eq_iff]
    exact ⟨h1, by linarith⟩
  unfold roundHalfEven
  rw [hf, if_pos]
  linarith

lemma pyRound_eq_self (x : ℚ) (n : ℕ) (z : ℤ)
    (hz : x * (10 ^ n : ℚ) = (z : ℚ)) : pyRound x n = x := by
  unfold pyRound
  rw [hz, roundHalfEven_intCast, ← hz,
    mul_div_cancel_right₀ x (pow_ne_zero n (by norm_num : (10 : ℚ) ≠ 0))]

lemma pyRound_eq_of_lt_half (x : ℚ) (n : ℕ) (z : ℤ)
    (h1 : (z : ℚ) ≤ x * (10 ^ n : ℚ)) (h2 : x * (10 ^ n : ℚ) < z + 1 / 2) :
    pyRound x n = (z : ℚ) / (10 ^ n : ℚ) := by
  unfold pyRound
  rw [roundHalfEven_of_lt_half _ z h1 h2]

/-- The decoded weather record returned by `parse_frame`.
`none` is Python's `None` (sentinel / missing extension). -/
structure WeatherRecord where
  wind_dir_deg : Option ℕ
  temperature_c : Option ℚ
  humidity_pct : ℕ
  wind_speed_ms : Option ℚ
  gust_speed_ms : Option ℚ
  rainfall_mm : ℚ
  uv_wm2 : Option ℚ
  light_lux : Option ℚ
  pressure_hpa : Option ℚ
  battery_low : Bool
  deriving Repr, DecidableEq

/-- Embedding of `parse_frame` (wh65lp_reader.py lines 79-151). The
`ValueError` raised on short frames becomes `Except.error`; in-range
indexing `data[i]` is written `data.getD i 0` (all uses are guarded by the
length checks, exactly as in the source). -/
def parse_frame (data : List ℕ) : Except String WeatherRecord :=
  if data.length < FRAME_LEN_BASE then
    Except.error "Frame too short"
  else
    let b3 := data.getD 3 0
    let wind_dir_raw := data.getD 2 0 ||| ((b3 &&& 0x80) <<< 1)
    let temp_raw := data.getD 4 0 ||| ((b3 &&& 0x07) <<< 8)
    let wind_raw := data.getD 6 0 ||| ((b3 &&& 0x10) <<< 4)
    let gust_raw := data.getD 7 0
    let rain_raw := (data.getD 8 0 <<< 8) ||| data.getD 9 0
    let uv_raw := (data.getD 10 0 <<< 8) ||| data.getD 11 0
    let light_raw := (data.getD 12 0 <<< 16) ||| (data.getD 13 0 <<< 8) |||
      data.getD 14 0
    Except.ok
      { wind_dir_deg :=
          if wind_dir_raw = SENTINEL_WIND_DIR then none else some wind_dir_raw
        temperature_c :=
          if temp_raw = SENTINEL_TEMP then none
          else some (pyRound (((temp_raw : ℚ) - 400) / 10) 1)
        humidity_pct := data.getD 5 0
        wind_speed_ms :=
          if wind_raw = SENTINEL_WIND then none
          else some (pyRound (((wind_raw : ℚ) / 8) * (112 / 100)) 2)
        gust_speed_ms :=
          if gust_raw = SENTINEL_GUST then none
          else some (pyRound ((gust_raw : ℚ) * (112 / 100)) 2)
        rainfall_mm := pyRound ((rain_raw : ℚ) * (3 / 10)) 1
        uv_wm2 :=
          if uv_raw = SENTINEL_UV then none
          else some (pyRound ((uv_raw : ℚ) / 10) 1)
        light_lux :=
          if light_raw = SENTINEL_LIGHT then none
          else some (pyRound ((light_raw : ℚ) / 10) 1)
        pressure_hpa :=
          if FRAME_LEN_EXT ≤ data.length then
            some (pyRound
              ((((data.getD 17 0 <<< 16) ||| (data.getD 18 0 <<< 8) |||
                data.getD 19 0 : ℕ) : ℚ) / 100) 1)
          else none
        battery_low := b3 &&& 0x08 ≠ 0 }

/-- C7: For every frame of length ≥ 17, decode returns a record without
failing; every field whose raw bit-group equals its sentinel is marked
absent (wind direction, temperature, wind speed, gust, UV, illuminance),
while humidity and rainfall are always present with numeric values. -/
theorem parse_frame_sentinels (data : List ℕ) (h : 17 ≤ data.length) :
    ∃ rec, parse_frame data = Except.ok rec ∧
      (data.getD 2 0 ||| ((data.getD 3 0 &&& 0x80) <<< 1) = SENTINEL_WIND_DIR →
        rec.wind_dir_deg = none) ∧
      (data.getD 4 0 ||| ((data.getD 3 0 &&& 0x07) <<< 8) = SENTINEL_TEMP →
        rec.temperature_c = none) ∧
      (data.getD 6 0 ||| ((data.getD 3 0 &&& 0x10) <<< 4) = SENTINEL_WIND →
        rec.wind_speed_ms = none) ∧
      (data.getD 7 0 = SENTINEL_GUST → rec.gust_speed_ms = none) ∧
      ((data.getD 10 0 <<< 8) ||| data.getD 11 0 = SENTINEL_UV →
        rec.uv_wm2 = none) ∧
      ((data.getD 12 0 <<< 16) ||| (data.getD 13 0 <<< 8) ||| data.getD 14 0 =
          SENTINEL_LIGHT → rec.light_lux = none) ∧
      rec.humidity_pct = data.getD 5 0 ∧
      rec.rainfall_mm =
        pyRound ((((data.getD 8 0 <<< 8) ||| data.getD 9 0 : ℕ) : ℚ) *
          (3 / 10)) 1 := by
  unfold parse_frame
  rw [if_neg (by unfold FRAME_LEN_BASE; omega)]
  refine ⟨_, rfl, ?_, ?_, ?_, ?_, ?_, ?_, rfl, rfl⟩ <;>
    · intro hs
      rw [if_pos hs]

/-- A 17-byte frame whose wind-direction bits encode 0x1FF and whose
temperature bits encode 0x7FF (byte 3 = 0x87, bytes 2 and 4 = 0xFF),
with correct checksum byte 0xEF. -/
def sentinel_frame : List ℕ :=
  [0x24, 0, 0xFF, 0x87, 0xFF, 70, 0, 0, 0, 10, 0, 0, 0, 0, 0, 0, 0xEF]

/-- C7 witness: the sentinel frame decodes with wind direction and
temperature absent, humidity 70 and rainfall 3.0 present. -/
theorem parse_frame_sentinels_witness :
    ∃ rec, parse_frame sentinel_frame = Except.ok rec ∧
      rec.wind_dir_deg = none ∧ rec.temperature_c = none ∧
      rec.humidity_pct = 70 ∧ rec.rainfall_mm = 3 :=
  match parse_frame_sentinels sentinel_frame (by decide) with
  | ⟨rec, hok, hwd, htp, _, _, _, _, hh, hr⟩ =>
    ⟨rec, hok, hwd (by decide), htp (by decide), by rw [hh]; decide, by
      rw [hr, show (sentinel_frame.getD 8 0 <<< 8 ||| sentinel_frame.getD 9 0
          : ℕ) = 10 from by decide]
      rw [pyRound_eq_self _ _ 30 (by norm_num)]
      norm_num⟩

/-- A 21-byte frame: valid 17-byte base (checksum 0x24) followed by the
extension bytes [0, 0, 4, 0], so the raw pressure value is 4. -/
def frame21 : List ℕ :=
  [0x24, 0, 0, 0, 0, 0, 0, 0, 0, 0, 0, 0, 0, 0, 0, 0, 0x24, 0, 0, 4, 0]

/-- C10 counterexample: on the 21-byte frame with raw pressure value 4 the
decoded pressure is 0.0 (the code rounds raw/100 to one decimal), not
4/100 = 0.04 as the claim's "divided by 100" states. Python's
`round(0.04, 1)` is likewise 0.0. -/
theorem parse_frame_pressure_rounds :
    (parse_frame frame21).map (fun r => r.pressure_hpa) =
      Except.ok (some 0) ∧ (0 : ℚ) ≠ 4 / 100 := by
  constructor
  · unfold parse_frame
    rw [if_neg (by decide)]
    simp only [Except.map]
    rw [if_pos (by decide),
      show (frame21.getD 17 0 <<< 16 ||| frame21.getD 18 0 <<< 8 |||
        frame21.getD 19 0 : ℕ) = 4 from by decide]
    rw [pyRound_eq_of_lt_half _ _ 0 (by norm_num) (by norm_num)]
    norm_num
  · norm_num

/-- C10 (amended): parse_frame fails on any input shorter than 17 bytes;
for every input of length 17 through 20 it returns a record with the
pressure field absent; for every input of length at least 21 the pressure
field is the 24-bit big-endian value of bytes 17..19 divided by 100 and
then rounded to one decimal (Python `round(x, 1)`), so lengths strictly
between the 17- and 21-byte variants are accepted and treated as the basic
frame. -/
theorem parse_frame_length_cases (data : List ℕ) :
    (data.length < 17 → ∃ e, parse_frame data = Except.error e) ∧
    (17 ≤ data.length → data.length < 21 →
      ∃ rec, parse_frame data = Except.ok rec ∧ rec.pressure_hpa = none) ∧
    (21 ≤ data.length →
      ∃ rec, parse_frame data = Except.ok rec ∧
        rec.pressure_hpa = some (pyRound
          ((((data.getD 17 0 <<< 16) ||| (data.getD 18 0 <<< 8) |||
            data.getD 19 0 : ℕ) : ℚ) / 100) 1)) := by
  refine ⟨?_, ?_, ?_⟩
  · intro hshort
    exact ⟨_, by unfold parse_frame; rw [if_pos (by unfold FRAME_LEN_BASE; omega)]⟩
  · intro h17 h21
    unfold parse_frame
    rw [if_neg (by unfold FRAME_LEN_BASE; omega)]
    refine ⟨_, rfl, ?_⟩
    dsimp only
    rw [if_neg (by unfold FRAME_LEN_EXT; omega)]
  · intro h21
    unfold parse_frame
    rw [if_neg (by unfold FRAME_LEN_BASE; omega)]
    refine ⟨_, rfl, ?_⟩
    dsimp only
    rw [if_pos (by unfold FRAME_LEN_EXT; omega)]

/-- C10 witness: the three length regimes at concrete inputs — a 10-byte
input fails, an 18-byte input decodes with pressure absent, and `frame21`
decodes with pressure 0.0 = round(4/100, 1). -/
theorem parse_frame_length_cases_witness :
    (∃ e, parse_frame (List.replicate 10 0) = Except.error e) ∧
    (∃ rec, parse_frame (List.replicate 18 0) = Except.ok rec ∧
      rec.pressure_hpa = none) ∧
    (∃ rec, parse_frame frame21 = Except.ok rec ∧
      rec.pressure_hpa = some (pyRound
        ((((frame21.getD 17 0 <<< 16) ||| (frame21.getD 18 0 <<< 8) |||
          frame21.getD 19 0 : ℕ) : ℚ) / 100) 1)) :=
  ⟨(parse_frame_length_cases (List.replicate 10 0)).1 (by decide),
   (parse_frame_length_cases (List.replicate 18 0)).2.1 (by decide) (by decide),
   (parse_frame_length_cases frame21).2.2 (by decide)⟩

/-! ### Serial frame reader (wh65lp_reader.py lines 154-227)

The serial port is modelled as a log of read results: each `ser.read(..)`
call consumes one entry `(t, chunk)`, where `t` is the monotonic time when
the call returns and `chunk` the bytes it returned (`[]` models a read
that timed out empty). During the sync scan the code calls `ser.read(1)`,
so those chunks carry at most one byte. An exhausted log makes the model
return `none`, standing for a serial stream that never produces data. -/

/-- Sync-byte scan of `read_frame` (lines 188-199): before each 1-byte
read, return `none` (with only a log message) once `time.monotonic()`
exceeds the deadline; skip empty reads and non-0x24 bytes; on 0x24 return
the remaining log. -/
def findSync (deadline : ℚ) : ℚ → List (ℚ × List ℕ) → Option (List (ℚ × List ℕ))
  | _, [] => none
  | t, (t', chunk) :: rest =>
    if deadline < t then none
    else
      match chunk.head? with
      | none => findSync deadline t' rest
      | some b => if b = SYNC_BYTE then some rest else findSync deadline t' rest

/-- Embedding of `read_exact` (lines 154-166): keep reading chunks until
`n` bytes are collected; an empty chunk (serial timeout) yields `none`. -/
def read_exact_aux (n : ℕ) (acc : List ℕ) :
    List (ℚ × List ℕ) → Option (List ℕ × List (ℚ × List ℕ))
  | [] => none
  | (_, chunk) :: rest =>
    if chunk.isEmpty then none
    else
      let acc' := acc ++ chunk
      if n ≤ acc'.length then some (acc'.take n, rest)
      else read_exact_aux n acc' rest

/-- Embedding of `read_frame` (lines 169-227): scan for the 0x24 sync byte
until `sync_timeout` elapses, collect 16 more bytes, verify the checksum,
then attempt one more 4-byte read (the ≈100 ms extension probe) and return
the 21-byte frame when it yields exactly 4 bytes. Every failure path
returns `none`. -/
def read_frame (sync_timeout t0 : ℚ) (s : List (ℚ × List ℕ)) :
    Option (List ℕ) :=
  let deadline := t0 + sync_timeout
  match findSync deadline t0 s with
  | none => none
  | some s1 =>
    match read_exact_aux (FRAME_LEN_BASE - 1) [] s1 with
    | none => none
    | some (rest, s2) =>
      let frame := SYNC_BYTE :: rest
      if verify_checksum frame then
        match s2 with
        | [] => some frame
        | (_, ext) :: _ =>
          if ext.length = 4 then some (frame ++ ext) else some frame
      else none

/-- A log on which the sync scan finds no 0x24 before the 60 s deadline:
junk bytes at t = 5 and t = 100. -/
def timeout_log : List (ℚ × List ℕ) := [(5, [0]), (100, [0])]

/-- A log delivering a full 17-byte frame whose checksum byte is wrong:
sync at t = 1, then 16 zero bytes (sum of bytes 0..15 is 0x24 ≠ 0). -/
def badsum_log : List (ℚ × List ℕ) :=
  [(1, [0x24]), (2, [0, 0, 0, 0, 0, 0, 0, 0, 0, 0, 0, 0, 0, 0, 0, 0])]

/-- C6 counterexample: a sync-timeout failure and a checksum failure both
return the same value `none`; the caller cannot distinguish the two
failure kinds from the result (they differ only in log output). -/
theorem read_frame_failures_collapse :
    read_frame 60 0 timeout_log = none ∧
    read_frame 60 0 badsum_log = none ∧
    read_frame 60 0 timeout_log = read_frame 60 0 badsum_log := by
  have h1 : read_frame 60 0 timeout_log = none := by
    norm_num [read_frame, findSync, timeout_log, SYNC_BYTE]
  have h2 : read_frame 60 0 badsum_log = none := by
    norm_num [read_frame, findSync, read_exact_aux, verify_checksum,
      badsum_log, SYNC_BYTE, FRAME_LEN_BASE, and_255_eq_mod]
  exact ⟨h1, h2, h1.trans h2.symm⟩

/-- C6 (amended): read_frame fails by returning `none` when `sync_timeout`
elapses before a 0x24 sync byte is observed, and also returns `none` when
the 17 collected bytes fail checksum verification; the two failure kinds
yield the same return value and are distinguished only in log messages,
not to the caller. -/
theorem read_frame_failures_return_none (sync_timeout t0 : ℚ)
    (s : List (ℚ × List ℕ)) :
    (findSync (t0 + sync_timeout) t0 s = none →
      read_frame sync_timeout t0 s = none) ∧
    (∀ s1 rest s2, findSync (t0 + sync_timeout) t0 s = some s1 →
      read_exact_aux (FRAME_LEN_BASE - 1) [] s1 = some (rest, s2) →
      verify_checksum (SYNC_BYTE :: rest) = false →
      read_frame sync_timeout t0 s = none) := by
  constructor
  · intro h
    simp only [read_frame, h]
  · intro s1 rest s2 h1 h2 h3
    simp only [read_frame, h1, h2, h3]
    simp

/-- C6 witness: the amended theorem applied to the two concrete logs. -/
theorem read_frame_failures_return_none_witness :
    read_frame 60 0 timeout_log = none ∧ read_frame 60 0 badsum_log = none :=
  ⟨(read_frame_failures_return_none 60 0 timeout_log).1
      (by norm_num [findSync, timeout_log, SYNC_BYTE]),
   (read_frame_failures_return_none 60 0 badsum_log).2
      [((2 : ℚ), [0, 0, 0, 0, 0, 0, 0, 0, 0, 0, 0, 0, 0, 0, 0, 0])]
      [0, 0, 0, 0, 0, 0, 0, 0, 0, 0, 0, 0, 0, 0, 0, 0] []
      (by norm_num [findSync, badsum_log, SYNC_BYTE])
      (by norm_num [read_exact_aux, FRAME_LEN_BASE])
      (by decide)⟩

/-! ### CommandGate (emergency_override.py)

Monotonic and wall-clock times are exact rationals, passed explicitly
where the Python calls `time.monotonic()` / `time.time()`. Relay writes
and MQTT publishes are reified as returned lists. -/

def LOCKOUT_SECONDS : ℚ := 300

/-- DI pin number → relay channel map `DI_RELAY_MAP` (lines 48-57). -/
def DI_RELAY_MAP : ℕ → Option ℕ
  | 7 => some 1
  | 8 => some 2
  | 9 => some 3
  | 10 => some 4
  | 11 => some 5
  | 12 => some 6
  | 13 => some 7
  | 14 => some 8
  | _ => none

/-- GPIO edge event (gpio_watch.py `GPIOEvent`). -/
structure GPIOEvent where
  di_pin : ℕ
  gpio_line : ℕ
  value : ℕ
  timestamp_ns : ℕ
  deriving Repr, DecidableEq

/-- Mutable state and construction parameters of a `CommandGate`. -/
structure GateState where
  lockout_seconds : ℚ
  lockout_until : ℚ
  mqtt_configured : Bool
  deriving Repr, DecidableEq

/-- A call into the relay driver made by the gate or the bridge. The
second field is the Python `on: bool` argument of `set_relay`. -/
structure RelayCall where
  channel : ℕ
  turn_on : Bool
  deriving Repr, DecidableEq

/-- The MQTT payload published by `CommandGate._publish_override`
(lines 188-204). -/
structure OverridePayload where
  di_pin : ℕ
  relay_ch : ℕ
  state : Bool
  timestamp : ℚ
  lockout_sec : ℚ
  deriving Repr, DecidableEq

/-- Embedding of `CommandGate.is_locked_out` (lines 102-104). -/
def is_locked_out (now : ℚ) (g : GateState) : Bool :=
  now < g.lockout_until

/-- Embedding of `CommandGate.clear_lockout` (lines 110-113). -/
def clear_lockout (g : GateState) : GateState :=
  { g with lockout_until := 0 }

/-- Embedding of `CommandGate.gate` (lines 119-142): the returned list is
the sequence of driver invocations the call performs. -/
def gate (now : ℚ) (g : GateState) (cmd : RelayCall) : Bool × List RelayCall :=
  if is_locked_out now g then (false, []) else (true, [cmd])

/-- Embedding of `CommandGate.handle_gpio_event` (lines 148-182) together
with `_publish_override` (lines 188-204). `t_mono` is `time.monotonic()`,
`t_wall` is `time.time()`. Returns the new gate state, the driver calls
made, and the MQTT payloads published. -/
def handle_gpio_event (t_mono t_wall : ℚ) (g : GateState) (e : GPIOEvent) :
    GateState × List RelayCall × List OverridePayload :=
  match DI_RELAY_MAP e.di_pin with
  | none => (g, [], [])
  | some relay_ch =>
    let state : Bool := e.value != 0
    let calls := [RelayCall.mk relay_ch state]
    let pubs :=
      if g.mqtt_configured then
        [OverridePayload.mk e.di_pin relay_ch state t_wall
          (if state then g.lockout_seconds else 0)]
      else []
    let g' :=
      if state then { g with lockout_until := t_mono + g.lockout_seconds }
      else g
    (g', calls, pubs)

/-- C1: if the gate is locked (now < lockout deadline) at the time of the
call, the relay driver is not invoked at all and the call returns false;
otherwise the driver command is invoked exactly once and the call returns
true. -/
theorem gate_locked_drops (now : ℚ) (g : GateState) (cmd : RelayCall) :
    (is_locked_out now g = true → gate now g cmd = (false, [])) ∧
    (is_locked_out now g = false → gate now g cmd = (true, [cmd])) := by
  unfold gate
  constructor
  · intro h; rw [if_pos h]
  · intro h; rw [if_neg (by simp [h])]

/-- C1 witness: a gate locked until t = 10 drops a command at t = 5, and
executes it exactly once at t = 20. -/
theorem gate_locked_drops_witness :
    gate 5 (GateState.mk 300 10 false) (RelayCall.mk 3 true) = (false, []) ∧
    gate 20 (GateState.mk 300 10 false) (RelayCall.mk 3 true) =
      (true, [RelayCall.mk 3 true]) :=
  ⟨(gate_locked_drops 5 (GateState.mk 300 10 false) (RelayCall.mk 3 true)).1
      (by decide),
   (gate_locked_drops 20 (GateState.mk 300 10 false) (RelayCall.mk 3 true)).2
      (by decide)⟩

/-- C9: for every GPIO event on a mapped DI pin handled with an MQTT
client configured, exactly one emergency-override payload is published;
its lockout_sec field equals the configured lockout_seconds when the event
is switch-close (value=1) and 0 when the event is switch-open (value=0),
and its di_pin, relay_ch and state fields reflect the event. -/
theorem publish_override_fields (t_mono t_wall : ℚ) (g : GateState)
    (e : GPIOEvent) (ch : ℕ) (hmap : DI_RELAY_MAP e.di_pin = some ch)
    (hm : g.mqtt_configured = true) :
    ∃ p, (handle_gpio_event t_mono t_wall g e).2.2 = [p] ∧
      p.di_pin = e.di_pin ∧ p.relay_ch = ch ∧ p.state = (e.value != 0) ∧
      (e.value = 1 → p.lockout_sec = g.lockout_seconds) ∧
      (e.value = 0 → p.lockout_sec = 0) := by
  unfold handle_gpio_event
  rw [hmap]
  dsimp only
  rw [if_pos hm]
  refine ⟨_, rfl, rfl, rfl, rfl, ?_, ?_⟩
  · intro h1
    dsimp only
    rw [if_pos (by simp [h1])]
  · intro h0
    dsimp only
    rw [if_neg (by simp [h0])]

/-- C9 witness: a close event on DI09 with MQTT configured publishes
`{di_pin := 9, relay_ch := 3, state := true, lockout_sec := 300}`. -/
theorem publish_override_fields_witness :
    ∃ p, (handle_gpio_event 7 1000 (GateState.mk 300 0 true)
        (GPIOEvent.mk 9 8 1 0)).2.2 = [p] ∧
      p.di_pin = 9 ∧ p.relay_ch = 3 ∧ p.state = true ∧ p.lockout_sec = 300 :=
  match publish_override_fields 7 1000 (GateState.mk 300 0 true)
      (GPIOEvent.mk 9 8 1 0) 3 (by decide) (by decide) with
  | ⟨p, hp, hd, hc, hs, hl, _⟩ =>
    ⟨p, hp, hd, hc, hs, hl rfl⟩

/-! ### Gate deadline dynamics (claim C2) -/

/-- An operation applied to the gate: a GPIO edge event handled by
`handle_gpio_event`, or a manual `clear_lockout`. -/
inductive GateOp where
  | gpio (e : GPIOEvent)
  | clear
  deriving Repr, DecidableEq

/-- One gate operation at monotonic time `t` (only the state component of
`handle_gpio_event` matters for the deadline dynamics). -/
def gate_step (g : GateState) (t : ℚ) (op : GateOp) : GateState :=
  match op with
  | GateOp.gpio e => (handle_gpio_event t t g e).1
  | GateOp.clear => clear_lockout g

/-- A timed sequence of gate operations applied in order. -/
def run_gate (g : GateState) : List (ℚ × GateOp) → GateState
  | [] => g
  | (t, op) :: rest => run_gate (gate_step g t op) rest

lemma gate_step_close (g : GateState) (t : ℚ) (e : GPIOEvent) (ch : ℕ)
    (hm : DI_RELAY_MAP e.di_pin = some ch) (hv : e.value ≠ 0) :
    (gate_step g t (GateOp.gpio e)).lockout_until = t + g.lockout_seconds := by
  simp only [gate_step, handle_gpio_event, hm]
  rw [if_pos (by simp [hv])]

lemma gate_step_open (g : GateState) (t : ℚ) (e : GPIOEvent)
    (hv : e.value = 0) : gate_step g t (GateOp.gpio e) = g := by
  simp only [gate_step, handle_gpio_event]
  cases hm : DI_RELAY_MAP e.di_pin with
  | none => simp [hm]
  | some ch => simp [hm, hv]

lemma gate_step_unmapped (g : GateState) (t : ℚ) (e : GPIOEvent)
    (hm : DI_RELAY_MAP e.di_pin = none) :
    gate_step g t (GateOp.gpio e) = g := by
  simp [gate_step, handle_gpio_event, hm]

lemma gate_step_seconds (g : GateState) (t : ℚ) (op : GateOp) :
    (gate_step g t op).lockout_seconds = g.lockout_seconds := by
  cases op with
  | clear => rfl
  | gpio e =>
    simp only [gate_step, handle_gpio_event]
    cases hm : DI_RELAY_MAP e.di_pin with
    | none => simp [hm]
    | some ch =>
      simp only [hm]
      split <;> rfl

lemma run_gate_seconds (ops : List (ℚ × GateOp)) :
    ∀ g : GateState, (run_gate g ops).lockout_seconds = g.lockout_seconds := by
  induction ops with
  | nil => intro g; rfl
  | cons x rest ih =>
    intro g
    obtain ⟨u, op⟩ := x
    rw [run_gate, ih, gate_step_seconds]

lemma gate_step_until_le (g : GateState) (u t : ℚ) (op : GateOp)
    (hu : u ≤ t) (ht : 0 ≤ t) (hL : 0 ≤ g.lockout_seconds)
    (hle : g.lockout_until ≤ t + g.lockout_seconds) :
    (gate_step g u op).lockout_until ≤ t + g.lockout_seconds := by
  cases op with
  | clear =>
    show (0 : ℚ) ≤ _
    linarith
  | gpio e =>
    cases hm : DI_RELAY_MAP e.di_pin with
    | none => rw [gate_step_unmapped g u e hm]; exact hle
    | some ch =>
      by_cases hv : e.value = 0
      · rw [gate_step_open g u e hv]; exact hle
      · rw [gate_step_close g u e ch hm hv]; linarith

lemma run_gate_until_le (t : ℚ) (ht : 0 ≤ t) (ops : List (ℚ × GateOp)) :
    ∀ g : GateState, 0 ≤ g.lockout_seconds → (∀ x ∈ ops, x.1 ≤ t) →
      g.lockout_until ≤ t + g.lockout_seconds →
      (run_gate g ops).lockout_until ≤ t + g.lockout_seconds := by
  induction ops with
  | nil => intro g _ _ h; exact h
  | cons x rest ih =>
    intro g hL hall hle
    obtain ⟨u, op⟩ := x
    rw [run_gate]
    have hsec := gate_step_seconds g u op
    have := ih (gate_step g u op) (hsec ▸ hL)
      (fun y hy => hall y (List.mem_cons_of_mem _ hy))
      (by rw [hsec]
          exact gate_step_until_le g u t op (hall _ (List.mem_cons_self _ _))
            ht hL hle)
    rwa [hsec] at this

/-- C2: along any timed sequence of GPIO events and clear operations whose
event times are nonnegative and bounded by the current time `t` (a
monotonic clock), starting from an unlocked gate: a switch-close event
(value=1) on a mapped DI pin sets the lockout deadline to
`t + lockout_seconds` and never decreases it, a switch-open event
(value=0) leaves the deadline unchanged, every non-clear operation leaves
the deadline nondecreasing, and clear resets it to zero — so clear is the
only operation that decreases it. -/
theorem lockout_deadline_monotone (g0 : GateState)
    (pre : List (ℚ × GateOp)) (t : ℚ) (op : GateOp)
    (hL : 0 ≤ g0.lockout_seconds) (h0 : g0.lockout_until = 0)
    (hpre : ∀ x ∈ pre, x.1 ≤ t) (ht : 0 ≤ t) :
    (∀ e ch, op = GateOp.gpio e → e.value = 1 →
      DI_RELAY_MAP e.di_pin = some ch →
      (gate_step (run_gate g0 pre) t op).lockout_until =
          t + g0.lockout_seconds ∧
        (run_gate g0 pre).lockout_until ≤
          (gate_step (run_gate g0 pre) t op).lockout_until) ∧
    (∀ e, op = GateOp.gpio e → e.value = 0 →
      (gate_step (run_gate g0 pre) t op).lockout_until =
        (run_gate g0 pre).lockout_until) ∧
    (op ≠ GateOp.clear →
      (run_gate g0 pre).lockout_until ≤
        (gate_step (run_gate g0 pre) t op).lockout_until) ∧
    (op = GateOp.clear →
      (gate_step (run_gate g0 pre) t op).lockout_until = 0) := by
  have hsec : (run_gate g0 pre).lockout_seconds = g0.lockout_seconds :=
    run_gate_seconds pre g0
  have hinv : (run_gate g0 pre).lockout_until ≤ t + g0.lockout_seconds :=
    run_gate_until_le t ht pre g0 hL hpre (by rw [h0]; linarith)
  refine ⟨?_, ?_, ?_, ?_⟩
  · intro e ch hop hv hm
    subst hop
    have hclose := gate_step_close (run_gate g0 pre) t e ch hm (by omega)
    rw [hclose, hsec]
    exact ⟨rfl, hinv⟩
  · intro e hop hv
    subst hop
    rw [gate_step_open _ t e hv]
  · intro hop
    cases op with
    | clear => exact absurd rfl hop
    | gpio e =>
      cases hm : DI_RELAY_MAP e.di_pin with
      | none => rw [gate_step_unmapped _ t e hm]
      | some ch =>
        by_cases hv : e.value = 0
        · rw [gate_step_open _ t e hv]
        · rw [gate_step_close _ t e ch hm hv, hsec]
          exact hinv
  · intro hop
    subst hop
    rfl

/-- C2 witness: after a close on DI07 at t = 1 (deadline 301), an open
event on DI08 at t = 2 leaves the deadline unchanged. -/
theorem lockout_deadline_monotone_witness :
    (gate_step
        (run_gate (GateState.mk 300 0 false)
          [(1, GateOp.gpio (GPIOEvent.mk 7 11 1 0))])
        2 (GateOp.gpio (GPIOEvent.mk 8 7 0 0))).lockout_until =
      (run_gate (GateState.mk 300 0 false)
        [(1, GateOp.gpio (GPIOEvent.mk 7 11 1 0))]).lockout_until :=
  ((lockout_deadline_monotone (GateState.mk 300 0 false)
      [(1, GateOp.gpio (GPIOEvent.mk 7 11 1 0))] 2
      (GateOp.gpio (GPIOEvent.mk 8 7 0 0))
      (by decide) rfl (by norm_num) (by norm_num)).2.1)
    (GPIOEvent.mk 8 7 0 0) rfl rfl

/-! ### MCP23008 relay driver (i2c_relay.py)

The driver's shadow output-latch byte `_olat` is the state; a successful
`set_relay` returns the new shadow value, which is also the byte written
to the OLAT register (so `get_state` returns exactly this value). -/

/-- Embedding of `MCP23008Relay.ch_to_bit` (lines 57-65): channel 1..8
maps to `1 << (8 - channel)` (reverse wiring); anything else raises
`ValueError`. The channel is an arbitrary Python int, hence `ℤ`. -/
def ch_to_bit (channel : ℤ) : Except String ℕ :=
  if 1 ≤ channel ∧ channel ≤ 8 then Except.ok (2 ^ (8 - channel).toNat)
  else Except.error "Channel must be 1-8"

/-- Embedding of `MCP23008Relay.set_relay` (lines 71-84): set or clear the
channel's bit in the shadow byte (`(~bit) & 0xFF` is `255 ^^^ bit` for
`bit < 256`) and write it out. -/
def set_relay (olat : ℕ) (channel : ℤ) (turn_on : Bool) : Except String ℕ :=
  match ch_to_bit channel with
  | Except.error e => Except.error e
  | Except.ok bit =>
    Except.ok (if turn_on then olat ||| bit else olat &&& (255 ^^^ bit))

/-- C8: the relay driver maps channel ch in 1..8 to bit `1 << (8-ch)`, and
ch outside 1..8 fails with an invalid-argument error; consequently
starting from mask 0, `set_relay(1, true)` yields mask 0x80, additionally
`set_relay(8, true)` yields 0x81, then `set_relay(1, false)` yields
0x01. -/
theorem ch_to_bit_reverse_wiring :
    (∀ ch : ℤ, 1 ≤ ch → ch ≤ 8 →
      ch_to_bit ch = Except.ok (2 ^ (8 - ch).toNat)) ∧
    (∀ ch : ℤ, ch < 1 ∨ 8 < ch → ∃ e, ch_to_bit ch = Except.error e) ∧
    set_relay 0 1 true = Except.ok 0x80 ∧
    set_relay 0x80 8 true = Except.ok 0x81 ∧
    set_relay 0x81 1 false = Except.ok 0x01 := by
  refine ⟨?_, ?_, rfl, rfl, rfl⟩
  · intro ch h1 h8
    unfold ch_to_bit
    rw [if_pos ⟨h1, h8⟩]
  · intro ch h
    exact ⟨_, by unfold ch_to_bit; rw [if_neg (by omega)]⟩

/-- C8 witness: channel 3 maps to bit 0x20 and channel 9 is rejected. -/
theorem ch_to_bit_reverse_wiring_witness :
    ch_to_bit 3 = Except.ok 0x20 ∧ ∃ e, ch_to_bit 9 = Except.error e :=
  ⟨by rw [ch_to_bit_reverse_wiring.1 3 (by decide) (by decide)]; rfl,
   ch_to_bit_reverse_wiring.2.1 9 (by decide)⟩

/-! ### Broker-to-relay bridge (mqtt_relay_bridge.py)

The timer table `self._timers` (a dict channel → threading.Timer) is
modelled as the list of channels currently holding an installed timer;
`dict.pop(ch, None)` is `filter (· != ch)`, insertion is cons. Relay
writes, state publishes, timer cancellations and timer installs performed
by one callback are reified as an action list in execution order. -/

inductive BridgeAction where
  | cancel_timer (ch : ℤ)
  | relay_write (ch : ℤ) (turn_on : Bool)
  | publish_state
  | install_timer (ch : ℤ)
  deriving Repr, DecidableEq

/-- Channels with a currently-installed auto-off timer. -/
structure BridgeState where
  timers : List ℤ
  deriving Repr, DecidableEq

/-- Embedding of `MqttRelayBridge._on_message` (lines 122-181) after
topic/JSON parsing: channel validation, cancellation of the pending timer,
relay write, state publish, and conditional timer installation, in source
order. -/
def on_message (s : BridgeState) (ch value : ℤ) (duration_sec : ℚ) :
    BridgeState × List BridgeAction :=
  if ch < 1 ∨ 8 < ch then (s, [])
  else
    let pending := s.timers.contains ch
    let timers1 := s.timers.filter (fun c => c != ch)
    let acts1 := (if pending then [BridgeAction.cancel_timer ch] else []) ++
      [BridgeAction.relay_write ch (value != 0), BridgeAction.publish_state]
    if value ≠ 0 ∧ 0 < duration_sec then
      (BridgeState.mk (ch :: timers1), acts1 ++ [BridgeAction.install_timer ch])
    else
      (BridgeState.mk timers1, acts1)

/-- Embedding of the `_auto_off` timer body (lines 160-169): write the
channel off, publish state, and remove the timer table entry. -/
def auto_off (s : BridgeState) (ch : ℤ) : BridgeState × List BridgeAction :=
  (BridgeState.mk (s.timers.filter (fun c => c != ch)),
   [BridgeAction.relay_write ch false, BridgeAction.publish_state])

/-- An event the bridge reacts to: an incoming relay set message, or the
firing of an auto-off timer for a channel. -/
inductive BridgeEv where
  | msg (ch value : ℤ) (duration_sec : ℚ)
  | fire (ch : ℤ)

/-- One bridge event applied to the timer table. -/
def bridge_step (s : BridgeState) : BridgeEv → BridgeState
  | BridgeEv.msg c v d => (on_message s c v d).1
  | BridgeEv.fire c => (auto_off s c).1

/-- The timer-table state after a sequence of bridge events. -/
def run_bridge (s : BridgeState) : List BridgeEv → BridgeState
  | [] => s
  | ev :: rest => run_bridge (bridge_step s ev) rest

/-- Recognizer for relay-write actions. -/
def isRelayWrite : BridgeAction → Bool
  | BridgeAction.relay_write _ _ => true
  | _ => false

lemma filter_ne_not_mem (l : List ℤ) (ch : ℤ) :
    ch ∉ l.filter (fun c => c != ch) := by
  intro h
  simp [List.mem_filter] at h

lemma on_message_nodup (s : BridgeState) (ch v : ℤ) (d : ℚ)
    (h : s.timers.Nodup) : ((on_message s ch v d).1).timers.Nodup := by
  unfold on_message
  split
  · exact h
  · dsimp only
    split
    · exact List.nodup_cons.mpr ⟨filter_ne_not_mem _ _, h.filter _⟩
    · exact h.filter _

lemma auto_off_nodup (s : BridgeState) (ch : ℤ) (h : s.timers.Nodup) :
    ((auto_off s ch).1).timers.Nodup := h.filter _

lemma run_bridge_nodup (evs : List BridgeEv) :
    ∀ s : BridgeState, s.timers.Nodup → (run_bridge s evs).timers.Nodup := by
  induction evs with
  | nil => intro s h; exact h
  | cons ev rest ih =>
    intro s h
    rw [run_bridge]
    cases ev with
    | msg c v d => exact ih _ (on_message_nodup s c v d h)
    | fire c => exact ih _ (auto_off_nodup s c h)

/-- C3: starting from an empty timer table, after any sequence of relay
set messages and timer firings at most one auto-off timer is installed per
channel; a message for a valid channel whose timer is pending emits the
cancellation as its first action, performs exactly one relay write, and
installs a new timer iff value = 1 (value ∈ {0,1}) and duration_sec > 0 —
so the pending timer is always cancelled before any relay write. -/
theorem bridge_timer_discipline (evs : List BridgeEv) :
    (∀ ch : ℤ,
      (run_bridge (BridgeState.mk []) evs).timers.count ch ≤ 1) ∧
    (∀ (s : BridgeState) (ch v : ℤ) (d : ℚ), 1 ≤ ch → ch ≤ 8 →
      s.timers.contains ch = true →
      ((on_message s ch v d).2).head? = some (BridgeAction.cancel_timer ch)) ∧
    (∀ (s : BridgeState) (ch v : ℤ) (d : ℚ), 1 ≤ ch → ch ≤ 8 →
      ((on_message s ch v d).2).filter isRelayWrite =
        [BridgeAction.relay_write ch (v != 0)]) ∧
    (∀ (s : BridgeState) (ch v : ℤ) (d : ℚ), 1 ≤ ch → ch ≤ 8 →
      (v = 0 ∨ v = 1) →
      (BridgeAction.install_timer ch ∈ (on_message s ch v d).2 ↔
        (v = 1 ∧ 0 < d))) := by
  refine ⟨?_, ?_, ?_, ?_⟩
  · intro ch
    exact List.nodup_iff_count_le_one.mp
      (run_bridge_nodup evs (BridgeState.mk []) List.nodup_nil) ch
  · intro s ch v d h1 h8 hpend
    unfold on_message
    rw [if_neg (by omega)]
    dsimp only
    split <;> simp [hpend]
  · intro s ch v d h1 h8
    unfold on_message
    rw [if_neg (by omega)]
    dsimp only
    split <;> cases hp : s.timers.contains ch <;>
      simp [hp, isRelayWrite, List.filter_append, List.filter]
  · intro s ch v d h1 h8 hv01
    unfold on_message
    rw [if_neg (by omega)]
    dsimp only
    split
    · next hvd =>
      simp only [List.mem_append, List.mem_singleton]
      constructor
      · intro _; exact ⟨by omega, hvd.2⟩
      · intro _; exact Or.inr trivial
    · next hvd =>
      constructor
      · intro hmem
        cases hp : s.timers.contains ch <;> rw [hp] at hmem <;>
          simp at hmem
      · intro hcon
        exact absurd ⟨by omega, hcon.2⟩ hvd

/-- C3 witness: after two on-commands with durations for channel 3 the
table holds at most one channel-3 timer, and a command arriving while a
channel-3 timer is pending cancels it first. -/
theorem bridge_timer_discipline_witness :
    (run_bridge (BridgeState.mk [])
        [BridgeEv.msg 3 1 5, BridgeEv.msg 3 1 2]).timers.count 3 ≤ 1 ∧
    ((on_message (BridgeState.mk [3]) 3 0 0).2).head? =
      some (BridgeAction.cancel_timer 3) :=
  ⟨(bridge_timer_discipline [BridgeEv.msg 3 1 5, BridgeEv.msg 3 1 2]).1 3,
   (bridge_timer_discipline []).2.1 (BridgeState.mk [3]) 3 0 0
     (by decide) (by decide) (by decide)⟩

end UnipiDaemon
